import Mathlib

/-!
Shallow embedding of the orbit propagation and ground-track pipeline of
`src/backend/app.py`.

Modelling conventions:
* Instants are rationals, counted in seconds from a whole-second-aligned
  epoch.  The request's `step_size` arrives in minutes and is converted by
  `timedelta(minutes=step_size)`; the endpoint models multiply it by `60`.
* The low-level propagator (`skyfield`) is a black-box capability
  `Satellite -> Int -> Option GeoState`: the `Int` is the whole-second epoch
  that `ts.utc(year, month, day, hour, minute, second)` receives (the
  `microsecond` component of `current_time` is never passed, which is a
  floor to whole seconds), and `none` models the capability raising.
* Python `while` loops are embedded as fuel-indexed functions; running out
  of fuel while the loop condition still holds is reported as `diverge`,
  so nontermination of the source loop is observable in the model.
* Exceptions are explicit: a `raise` from the capability becomes the
  `LoopRes.raise` constructor; the `except` handlers of the endpoints map
  it to the error responses the code returns.  Python's `ZeroDivisionError`
  in `sum(xs) / len(xs)` is modelled by an explicit emptiness test at the
  same program point.
-/

namespace OrbitalProp

/-- Full per-instant output of the propagation capability: sub-satellite
latitude/longitude (degrees), elevation (metres), and ECI position (km) and
velocity (km/s) as read off `geocentric` in the source. -/
structure GeoState where
  lat : ℚ
  lon : ℚ
  elevation : ℚ
  pos : ℚ × ℚ × ℚ
  vel : ℚ × ℚ × ℚ
  deriving DecidableEq, Repr

/-- One collected sample of the propagation loop: `time` is the exact instant
appended to `times` (full sub-second precision, via `isoformat()`), `epoch`
is the whole-second instant handed to `ts.utc(...)`, and `state` is the
capability's output at that epoch. -/
structure SampleEntry where
  time : ℚ
  epoch : ℤ
  state : GeoState
  deriving DecidableEq, Repr

/-- A registered satellite as the propagation endpoints see it.  `tleLines`
is the result of `satellite_data['tle'].strip().split('\n')`; the raw string
processing itself is not needed by any claim, the endpoints only test
`len(tle_lines) != 2`. -/
structure Satellite where
  id : ℕ
  name : String
  tleLines : List String
  deriving DecidableEq, Repr

/-- The black-box propagation capability (building the `EarthSatellite` and
evaluating `satellite.at(t).subpoint()` etc.); `none` models it raising. -/
def PropCap : Type := Satellite → ℤ → Option GeoState

/-- Error responses of the endpoints, one constructor per distinct error
payload in the source. -/
inductive ApiError where
  /-- `'Invalid TLE data format'`, HTTP 400. -/
  | invalidTleFormat
  /-- `'Propagation failed: ...'`, HTTP 500 (the `except` of `/propagate`). -/
  | propagationFailed
  /-- `'Ground track generation failed: ...'`, HTTP 500. -/
  | groundTrackFailed
  /-- `'No satellites available to propagate'`, HTTP 404. -/
  | noSatellitesAvailable
  /-- `'Failed to propagate any satellites'`, HTTP 500. -/
  | noSatellitesPropagated
  deriving DecidableEq, Repr

/-- Outcome of a fuelled embedding of the propagation `while` loop. -/
inductive LoopRes (α : Type) where
  /-- Fuel ran out while the loop condition still held. -/
  | diverge : LoopRes α
  /-- The capability raised at some instant. -/
  | raise : LoopRes α
  | ok : α → LoopRes α
  deriving DecidableEq, Repr

/-- Outcome of an endpoint: nontermination, an error response, or a 200. -/
inductive ApiRes (α : Type) where
  | diverge : ApiRes α
  | error : ApiError → ApiRes α
  | ok : α → ApiRes α
  deriving DecidableEq, Repr

/-- The instant-stepping skeleton of the propagation loops:
`current_time = start; while current_time <= end: ...; current_time += step`.
Returns the list of loop instants, or `none` if `fuel` iterations did not
reach termination. -/
def timeGridFuel : ℕ → ℚ → ℚ → ℚ → Option (List ℚ)
  | 0, cur, e, _ => if cur ≤ e then none else some []
  | fuel + 1, cur, e, step =>
    if cur ≤ e then (timeGridFuel fuel (cur + step) e step).map (fun l => cur :: l)
    else some []

/-- The shared body of the three propagation loops (`/propagate`,
`/propagate-all`'s inner loop, `/ground-track`): at each instant the
capability is invoked at the floor-to-whole-seconds epoch, its outputs are
appended, and the exact instant is appended to `times`. -/
def trackLoop (cap : ℤ → Option GeoState) : ℕ → ℚ → ℚ → ℚ → LoopRes (List SampleEntry)
  | 0, cur, e, _ => if cur ≤ e then .diverge else .ok []
  | fuel + 1, cur, e, step =>
    if cur ≤ e then
      match cap ⌊cur⌋ with
      | none => .raise
      | some st =>
        match trackLoop cap fuel (cur + step) e step with
        | .ok rest => .ok (⟨cur, ⌊cur⌋, st⟩ :: rest)
        | r => r
    else .ok []

/-- The antimeridian segmentation loop over `(lat, lon)` points, with `cur`
the accumulated current segment (in reverse, so that `append` is a cons):
each point is appended to the current segment, and when the next longitude
differs by more than 180 the current segment is closed and a fresh one is
started; after the loop a nonempty remainder is flushed. -/
def segLoop : List (ℚ × ℚ) → List (ℚ × ℚ) → List (List (ℚ × ℚ))
  | cur, [] => if cur.isEmpty then [] else [cur.reverse]
  | cur, [p] => [(p :: cur).reverse]
  | cur, p :: q :: rest =>
    if 180 < |q.2 - p.2| then (p :: cur).reverse :: segLoop [] (q :: rest)
    else segLoop (p :: cur) (q :: rest)

/-- Segmentation of a point sequence as performed identically in
`plotly_map_plot` and in the `/propagate-all` figure construction. -/
def segmentPoints (pts : List (ℚ × ℚ)) : List (List (ℚ × ℚ)) := segLoop [] pts

/-- One `go.Scattermapbox` trace, keeping the fields the claims are about.
`showlegend` is `true` when the source leaves the flag at its plotly
default. -/
structure Trace where
  lon : List ℚ
  lat : List ℚ
  color : String
  name : Option String
  showlegend : Bool
  deriving DecidableEq, Repr

/-- The figure data handed to the renderer: traces plus the mapbox center
and zoom. -/
structure Fig where
  traces : List Trace
  centerLon : ℚ
  centerLat : ℚ
  zoom : ℚ
  deriving DecidableEq, Repr

/-- Python's `enumerate`, starting at `n`. -/
def enumFrom {α : Type} : ℕ → List α → List (ℕ × α)
  | _, [] => []
  | n, a :: l => (n, a) :: enumFrom (n + 1) l

/-- `plotly_map_plot(latitudes, longitudes, zoom, center)`: segments the
points and builds one legend-hidden `#EDB120` trace per segment; a missing
center defaults to `[0, 0]` (the list is `[lon, lat]`). -/
def plotlyMapPlot (latitudes longitudes : List ℚ) (zoom : ℚ)
    (center : Option (ℚ × ℚ)) : Fig :=
  let c := center.getD (0, 0)
  let segs := segLoop [] (latitudes.zip longitudes)
  { traces := segs.map (fun s =>
      { lon := s.map Prod.snd, lat := s.map Prod.fst,
        color := "#EDB120", name := none, showlegend := false }),
    centerLon := c.1, centerLat := c.2, zoom := zoom }

/-- Response of `/api/satellites/<id>/propagate`. -/
structure TrackResponse where
  satelliteId : ℕ
  satelliteName : String
  track : List SampleEntry
  deriving DecidableEq, Repr

/-- `propagate_satellite` after parameter/registry lookup succeeded: the TLE
two-line check, then the propagation loop; any exception from the loop is
caught and returned as the 500 error.  `stepMin` is the request's
`step_size` in minutes. -/
def computeTrack (cap : PropCap) (sat : Satellite) (fuel : ℕ)
    (start e stepMin : ℚ) : ApiRes TrackResponse :=
  if sat.tleLines.length ≠ 2 then .error .invalidTleFormat
  else
    match trackLoop (cap sat) fuel start e (60 * stepMin) with
    | .diverge => .diverge
    | .raise => .error .propagationFailed
    | .ok l => .ok ⟨sat.id, sat.name, l⟩

/-- Response of `/api/satellites/<id>/ground-track`. -/
structure GroundTrackResponse where
  satelliteId : ℕ
  satelliteName : String
  fig : Fig
  track : List SampleEntry
  deriving DecidableEq, Repr

/-- `generate_ground_track` after lookup: TLE check, propagation loop, then
`center_lat = sum(latitudes) / len(latitudes)` — which raises
`ZeroDivisionError` on an empty track, caught by the same handler as a
propagation exception — and the figure via `plotly_map_plot`. -/
def computeGroundTrack (cap : PropCap) (sat : Satellite) (fuel : ℕ)
    (start e stepMin : ℚ) : ApiRes GroundTrackResponse :=
  if sat.tleLines.length ≠ 2 then .error .invalidTleFormat
  else
    match trackLoop (cap sat) fuel start e (60 * stepMin) with
    | .diverge => .diverge
    | .raise => .error .groundTrackFailed
    | .ok l =>
      let latitudes := l.map (fun s => s.state.lat)
      let longitudes := l.map (fun s => s.state.lon)
      if l.isEmpty then .error .groundTrackFailed
      else
        let centerLat := latitudes.sum / (latitudes.length : ℚ)
        let centerLon := longitudes.sum / (longitudes.length : ℚ)
        .ok ⟨sat.id, sat.name,
          plotlyMapPlot latitudes longitudes 2 (some (centerLon, centerLat)), l⟩

/-- One retained entry of `combined_results`. -/
structure SatResult where
  id : ℕ
  name : String
  track : List SampleEntry
  deriving DecidableEq, Repr

/-- The per-satellite loop of `propagate_all_satellites`: a satellite whose
TLE does not split into two lines is skipped (`continue`), a satellite whose
loop raises is skipped by the per-satellite `except`; `none` propagates
nontermination of an inner loop. -/
def bulkLoop (cap : PropCap) (fuel : ℕ) (start e stepMin : ℚ) :
    List Satellite → Option (List SatResult)
  | [] => some []
  | sat :: rest =>
    if sat.tleLines.length ≠ 2 then bulkLoop cap fuel start e stepMin rest
    else
      match trackLoop (cap sat) fuel start e (60 * stepMin) with
      | .diverge => none
      | .raise => bulkLoop cap fuel start e stepMin rest
      | .ok l =>
        (bulkLoop cap fuel start e stepMin rest).map
          (fun rs => ⟨sat.id, sat.name, l⟩ :: rs)

/-- The fixed ten-colour palette of `propagate_all_satellites`. -/
def palette : List String :=
  ["#1f77b4", "#ff7f0e", "#2ca02c", "#d62728", "#9467bd",
   "#8c564b", "#e377c2", "#7f7f7f", "#bcbd22", "#17becf"]

/-- `colors[idx % len(colors)]`. -/
def colorFor (idx : ℕ) : String := palette.getD (idx % palette.length) "#000000"

/-- The `(lat, lon)` point sequence of one retained satellite. -/
def satPoints (r : SatResult) : List (ℚ × ℚ) :=
  r.track.map (fun s => (s.state.lat, s.state.lon))

/-- The traces added for one satellite of the combined figure: one trace per
segment, the first with the plotly-default (visible) legend flag, all later
ones with `showlegend=False`; every trace carries the satellite's name and
its assigned colour. -/
def tracesForSat (name color : String) (pts : List (ℚ × ℚ)) : List Trace :=
  (enumFrom 0 (segLoop [] pts)).map (fun p =>
    { lon := p.2.map Prod.snd, lat := p.2.map Prod.fst, color := color,
      name := some name, showlegend := p.1 == 0 })

/-- All latitudes pooled across the retained tracks (`all_lats`). -/
def allLats (results : List SatResult) : List ℚ :=
  (results.map (fun r => r.track.map (fun s => s.state.lat))).flatten

/-- All longitudes pooled across the retained tracks (`all_lons`). -/
def allLons (results : List SatResult) : List ℚ :=
  (results.map (fun r => r.track.map (fun s => s.state.lon))).flatten

/-- The combined figure of `propagate_all_satellites`: per-satellite traces
with palette colours cycling by output index, centered at the arithmetic
mean of the pooled points (`0` when there are no points), zoom 1. -/
def buildBulkFig (results : List SatResult) : Fig :=
  { traces := ((enumFrom 0 results).map (fun p =>
      tracesForSat p.2.name (colorFor p.1) (satPoints p.2))).flatten,
    centerLat :=
      if (allLats results).isEmpty then 0
      else (allLats results).sum / ((allLats results).length : ℚ),
    centerLon :=
      if (allLons results).isEmpty then 0
      else (allLons results).sum / ((allLons results).length : ℚ),
    zoom := 1 }

/-- Response of `/api/satellites/propagate-all`. -/
structure AllResponse where
  count : ℕ
  fig : Fig
  results : List SatResult
  deriving DecidableEq, Repr

/-- `propagate_all_satellites` after parameter parsing: the empty registry is
reported first (404, distinct), then each satellite is attempted with
per-satellite failure isolation; if nothing was retained the 500
`noSatellitesPropagated` error is returned, otherwise the combined figure
and data. -/
def propagateAll (cap : PropCap) (fuel : ℕ) (start e stepMin : ℚ)
    (sats : List Satellite) : ApiRes AllResponse :=
  if sats.isEmpty then .error .noSatellitesAvailable
  else
    match bulkLoop cap fuel start e stepMin sats with
    | none => .diverge
    | some results =>
      if results.isEmpty then .error .noSatellitesPropagated
      else .ok ⟨results.length, buildBulkFig results, results⟩

/-- Sample count predicted by the spec: `floor((end - start) / step) + 1`
when the window is nonempty, `0` otherwise. -/
def gridSize (cur e step : ℚ) : ℕ :=
  if cur ≤ e then (⌊(e - cur) / step⌋).toNat + 1 else 0

/-- Modelled from the spec (§4.5): the segmentation that cuts between
consecutive points exactly when their longitudes differ by more than 180°,
for comparison with the source's `segLoop`. -/
def segmenterSpec : List (ℚ × ℚ) → List (List (ℚ × ℚ))
  | [] => []
  | [p] => [[p]]
  | p :: q :: rest =>
    if 180 < |q.2 - p.2| then [p] :: segmenterSpec (q :: rest)
    else
      match segmenterSpec (q :: rest) with
      | [] => [[p]]
      | s :: ss => (p :: s) :: ss

/-- A degenerate capability output used by concrete runs of the model. -/
def stZero : GeoState := ⟨0, 0, 0, (0, 0, 0), (0, 0, 0)⟩

/-- A capability that always succeeds, for concrete runs. -/
def capZero : PropCap := fun _ _ => some stZero

/-- A capability that always raises, for concrete runs. -/
def capNone : PropCap := fun _ _ => none

/-- A registered satellite whose element text splits into exactly two lines. -/
def satTwoLine : Satellite := ⟨1, "A", ["line1", "line2"]⟩

/-- A registered satellite whose element text yields a single line. -/
def satOneLine : Satellite := ⟨2, "B", ["line1"]⟩

/-- Whether the bulk path skips a satellite: the element text does not split
into exactly two lines, or its propagation loop raises (a non-`ok`,
non-diverging outcome). -/
def satFails (cap : PropCap) (fuel : ℕ) (start e stepMin : ℚ) (sat : Satellite) : Bool :=
  decide (sat.tleLines.length ≠ 2) ||
    (match trackLoop (cap sat) fuel start e (60 * stepMin) with
     | .ok _ => false
     | _ => true)

/-- Number of satellites the bulk path skips. -/
def failCount (cap : PropCap) (fuel : ℕ) (start e stepMin : ℚ)
    (sats : List Satellite) : ℕ :=
  (sats.filter (fun sat => satFails cap fuel start e stepMin sat)).length

/-- A capability state with a given sub-satellite latitude, for concrete
runs. -/
def stLat (x : ℚ) : GeoState := ⟨x, 0, 0, (0, 0, 0), (0, 0, 0)⟩

/-- A concrete retained result with a two-sample track (latitudes 0, 10). -/
def resA : SatResult := ⟨1, "A", [⟨0, 0, stLat 0⟩, ⟨60, 60, stLat 10⟩]⟩

/-- A concrete retained result with a one-sample track (latitude 14). -/
def resB : SatResult := ⟨2, "B", [⟨0, 0, stLat 14⟩]⟩

/-! Helper lemmas about the stepping loop. -/

lemma gridSize_succ {cur e step : ℚ} (hs : 0 < step) (h : cur ≤ e) :
    gridSize cur e step = gridSize (cur + step) e step + 1 := by
  unfold gridSize
  rw [if_pos h]
  by_cases h2 : cur + step ≤ e
  · rw [if_pos h2]
    have key : (e - cur) / step = (e - (cur + step)) / step + 1 := by
      field_simp
      ring
    have hnn : (0 : ℚ) ≤ (e - (cur + step)) / step :=
      div_nonneg (by linarith) hs.le
    have hfl : ⌊(e - cur) / step⌋ = ⌊(e - (cur + step)) / step⌋ + 1 := by
      rw [key, Int.floor_add_one]
    have h0 : 0 ≤ ⌊(e - (cur + step)) / step⌋ := Int.floor_nonneg.mpr hnn
    omega
  · rw [if_neg h2]
    have h1 : (0 : ℚ) ≤ (e - cur) / step := div_nonneg (by linarith) hs.le
    have h1' : (e - cur) / step < 1 := by
      rw [div_lt_one hs]
      linarith
    have hz : ⌊(e - cur) / step⌋ = 0 := Int.floor_eq_zero_iff.mpr ⟨h1, h1'⟩
    simp [hz]

lemma timeGridFuel_of_le {e step : ℚ} (hs : 0 < step) :
    ∀ (fuel : ℕ) (cur : ℚ), gridSize cur e step ≤ fuel →
      timeGridFuel fuel cur e step =
        some ((List.range (gridSize cur e step)).map (fun k : ℕ => cur + (k : ℚ) * step)) := by
  intro fuel
  induction fuel with
  | zero =>
    intro cur hle
    have h : ¬ cur ≤ e := by
      intro hc
      simp [gridSize, if_pos hc] at hle
    simp [timeGridFuel, h, gridSize]
  | succ f ih =>
    intro cur hle
    by_cases h : cur ≤ e
    · have hstep := gridSize_succ hs h
      have hf : gridSize (cur + step) e step ≤ f := by omega
      rw [hstep]
      simp only [timeGridFuel, if_pos h, ih _ hf, Option.map_some']
      congr 1
      rw [List.range_succ_eq_map, List.map_cons, List.map_map]
      congr 1
      · norm_num
      · refine List.map_congr_left (fun k _ => ?_)
        simp only [Function.comp_apply]
        push_cast
        ring
    · simp [timeGridFuel, h, gridSize]

lemma timeGridFuel_some {e step : ℚ} (hs : 0 < step) :
    ∀ (fuel : ℕ) (cur : ℚ) (l : List ℚ), timeGridFuel fuel cur e step = some l →
      l = (List.range (gridSize cur e step)).map (fun k : ℕ => cur + (k : ℚ) * step) := by
  intro fuel
  induction fuel with
  | zero =>
    intro cur l h
    by_cases hc : cur ≤ e
    · simp [timeGridFuel, hc] at h
    · simp only [timeGridFuel, if_neg hc] at h
      simp [gridSize, hc, ← Option.some_inj.mp h]
  | succ f ih =>
    intro cur l h
    by_cases hc : cur ≤ e
    · simp only [timeGridFuel, if_pos hc, Option.map_eq_some'] at h
      obtain ⟨rest, hrest, hl⟩ := h
      have hr := ih (cur + step) rest hrest
      rw [← hl, hr, gridSize_succ hs hc]
      rw [List.range_succ_eq_map, List.map_cons, List.map_map]
      congr 1
      · norm_num
      · refine (List.map_congr_left (fun k _ => ?_)).symm
        simp only [Function.comp_apply]
        push_cast
        ring
    · simp only [timeGridFuel, if_neg hc] at h
      simp [gridSize, hc, ← Option.some_inj.mp h]

lemma grid_instant_le {cur e step : ℚ} (hs : 0 < step) (hle : cur ≤ e) {k : ℕ}
    (hk : k < gridSize cur e step) : cur + (k : ℚ) * step ≤ e := by
  unfold gridSize at hk
  rw [if_pos hle] at hk
  have h0 : 0 ≤ ⌊(e - cur) / step⌋ :=
    Int.floor_nonneg.mpr (div_nonneg (by linarith) hs.le)
  have hk' : (k : ℤ) ≤ ⌊(e - cur) / step⌋ := by omega
  have hq : (k : ℚ) ≤ (e - cur) / step := by
    have := Int.le_floor.mp hk'
    push_cast at this
    exact this
  have := (le_div_iff₀ hs).mp hq
  linarith

/-- C2: for a window with `start ≤ end` and `step > 0`, whenever the stepping
loop terminates its sample sequence is `start, start + step, …`, it has
exactly `floor((end - start) / step) + 1` instants, and every instant is
`≤ end`. -/
theorem c2_time_grid_count (start e step : ℚ) (fuel : ℕ) (l : List ℚ)
    (hs : 0 < step) (hse : start ≤ e)
    (h : timeGridFuel fuel start e step = some l) :
    l = (List.range ((⌊(e - start) / step⌋).toNat + 1)).map
        (fun k : ℕ => start + (k : ℚ) * step) ∧
    l.length = (⌊(e - start) / step⌋).toNat + 1 ∧
    ∀ t ∈ l, t ≤ e := by
  have hchar := timeGridFuel_some hs fuel start l h
  have hg : gridSize start e step = (⌊(e - start) / step⌋).toNat + 1 := by
    simp [gridSize, hse]
  refine ⟨by rw [hchar, hg], by rw [hchar, hg]; simp, ?_⟩
  intro t ht
  rw [hchar] at ht
  simp only [List.mem_map, List.mem_range] at ht
  obtain ⟨k, hk, rfl⟩ := ht
  exact grid_instant_le hs hse hk

/-- C2 witness: the scenario window `00:00 … 00:02` at one-minute steps
(`0 … 120` seconds, step `60`) yields the three samples `:00, :01, :02`, and
the degenerate `start = end` window yields exactly one sample. -/
theorem c2_witness :
    timeGridFuel 5 0 120 60 = some [0, 60, 120] ∧
    ([0, 60, 120] : List ℚ).length = (⌊((120 : ℚ) - 0) / 60⌋).toNat + 1 ∧
    timeGridFuel 1 0 0 60 = some [0] := by
  have h : timeGridFuel 5 0 120 60 = some [0, 60, 120] := by
    norm_num [timeGridFuel]
  refine ⟨h, (c2_time_grid_count 0 120 60 5 _ (by norm_num) (by norm_num) h).2.1, ?_⟩
  norm_num [timeGridFuel]

/-- C4 (code bug): the source performs no step validation at all.  With
`step = 0` and `start = end` the stepping loop never terminates — for every
fuel bound it is still running — so no `InvalidTimeWindow`-style failure is
ever produced (the error taxonomy of the code, `ApiError`, has no such
constructor); and with `start > end` a non-positive step is answered with a
successful empty response instead of an error. -/
theorem c4_no_step_validation :
    (∀ fuel : ℕ, timeGridFuel fuel 0 0 0 = none) ∧
    computeTrack capZero satTwoLine 0 1 0 0 = .ok ⟨1, "A", []⟩ := by
  constructor
  · intro fuel
    induction fuel with
    | zero => norm_num [timeGridFuel]
    | succ f ih => norm_num [timeGridFuel, ih]
  · norm_num [computeTrack, trackLoop, capZero, satTwoLine]

/-- C5: for every `step > 0` the stepping loop terminates: some finite fuel
makes it return its (finite) sample list. -/
theorem c5_grid_terminates (start e step : ℚ) (hs : 0 < step) :
    ∃ (fuel : ℕ) (l : List ℚ), timeGridFuel fuel start e step = some l :=
  ⟨gridSize start e step, _, timeGridFuel_of_le hs _ start le_rfl⟩

/-- C5 witness: a concrete day-long window at one-minute steps terminates. -/
theorem c5_witness :
    ∃ (fuel : ℕ) (l : List ℚ), timeGridFuel fuel 0 86400 60 = some l :=
  c5_grid_terminates 0 86400 60 (by norm_num)

/-- C3 (code bug): with `start > end` the `/propagate` endpoint does return a
successful empty track, but the `/ground-track` endpoint computes
`sum(latitudes) / len(latitudes)` on the empty track, raising
`ZeroDivisionError`, which its handler reports as the 500 error — not the
successful empty result the claim states. -/
theorem c3_start_after_end :
    computeTrack capZero satTwoLine 0 1 0 1 = .ok ⟨1, "A", []⟩ ∧
    computeGroundTrack capZero satTwoLine 0 1 0 1 = .error .groundTrackFailed := by
  constructor
  · norm_num [computeTrack, trackLoop, capZero, satTwoLine]
  · norm_num [computeGroundTrack, trackLoop, capZero, satTwoLine]

/-! Helper lemmas about the antimeridian segmenter. -/

lemma segLoop_flatten : ∀ (pts cur : List (ℚ × ℚ)),
    (segLoop cur pts).flatten = cur.reverse ++ pts := by
  intro pts
  induction pts with
  | nil =>
    intro cur
    by_cases h : cur.isEmpty
    · simp [segLoop, h, List.isEmpty_iff.mp h]
    · simp [segLoop, h]
  | cons p rest ih =>
    intro cur
    cases rest with
    | nil => simp [segLoop]
    | cons q rest2 =>
      by_cases h : 180 < |q.2 - p.2|
      · simp [segLoop, h, ih]
      · simp [segLoop, h, ih]

lemma segLoop_ne_nil : ∀ (pts cur s : List (ℚ × ℚ)), s ∈ segLoop cur pts → s ≠ [] := by
  intro pts
  induction pts with
  | nil =>
    intro cur s hs
    by_cases h : cur.isEmpty
    · simp [segLoop, h] at hs
    · simp only [segLoop, if_neg h, List.mem_singleton] at hs
      subst hs
      simp only [ne_eq, List.reverse_eq_nil_iff]
      exact fun hc => h (by simp [hc])
  | cons p rest ih =>
    intro cur s hs
    cases rest with
    | nil =>
      simp only [segLoop, List.mem_singleton] at hs
      subst hs
      simp
    | cons q rest2 =>
      by_cases h : 180 < |q.2 - p.2|
      · simp only [segLoop, if_pos h, List.mem_cons] at hs
        rcases hs with rfl | hs
        · simp
        · exact ih [] s hs
      · simp only [segLoop, if_neg h] at hs
        exact ih (p :: cur) s hs

lemma segmenterSpec_ne_nil : ∀ (pts : List (ℚ × ℚ)), pts ≠ [] → segmenterSpec pts ≠ [] := by
  intro pts
  match pts with
  | [] => exact fun h => absurd rfl h
  | [p] => exact fun _ => by simp [segmenterSpec]
  | p :: q :: rest =>
    intro _
    by_cases h : 180 < |q.2 - p.2|
    · simp [segmenterSpec, h]
    · simp only [segmenterSpec, if_neg h]
      cases hsp : segmenterSpec (q :: rest) <;> simp

lemma segLoop_eq_spec : ∀ (pts : List (ℚ × ℚ)), pts ≠ [] →
    ∀ (cur s : List (ℚ × ℚ)) (ss : List (List (ℚ × ℚ))),
      segmenterSpec pts = s :: ss → segLoop cur pts = (cur.reverse ++ s) :: ss := by
  intro pts
  induction pts with
  | nil => exact fun h => absurd rfl h
  | cons p rest ih =>
    intro _ cur s ss hspec
    cases rest with
    | nil =>
      simp only [segmenterSpec, List.cons.injEq] at hspec
      obtain ⟨rfl, rfl⟩ := hspec
      simp [segLoop]
    | cons q rest2 =>
      by_cases h : 180 < |q.2 - p.2|
      · simp only [segmenterSpec, if_pos h, List.cons.injEq] at hspec
        obtain ⟨rfl, rfl⟩ := hspec
        cases hsp : segmenterSpec (q :: rest2) with
        | nil => exact absurd hsp (segmenterSpec_ne_nil _ (by simp))
        | cons t ts =>
          have := ih (by simp) [] t ts hsp
          simp only [segLoop, if_pos h, this, List.reverse_nil, List.nil_append]
          simp [← hsp]
      · cases hsp : segmenterSpec (q :: rest2) with
        | nil => exact absurd hsp (segmenterSpec_ne_nil _ (by simp))
        | cons t ts =>
          simp only [segmenterSpec, if_neg h, hsp, List.cons.injEq] at hspec
          obtain ⟨rfl, rfl⟩ := hspec
          have := ih (by simp) (p :: cur) t ts hsp
          simp only [segLoop, if_neg h, this, List.reverse_cons]
          simp

lemma segmentPoints_eq_spec (pts : List (ℚ × ℚ)) :
    segmentPoints pts = segmenterSpec pts := by
  cases pts with
  | nil => simp [segmentPoints, segLoop, segmenterSpec]
  | cons p rest =>
    obtain ⟨s, ss, hsp⟩ : ∃ s ss, segmenterSpec (p :: rest) = s :: ss := by
      cases hq : segmenterSpec (p :: rest) with
      | nil => exact absurd hq (segmenterSpec_ne_nil _ (by simp))
      | cons a b => exact ⟨a, b, rfl⟩
    rw [segmentPoints, segLoop_eq_spec _ (by simp) [] s ss hsp, hsp]
    simp

lemma segmenterSpec_head (p : ℚ × ℚ) (rest : List (ℚ × ℚ))
    (s : List (ℚ × ℚ)) (ss : List (List (ℚ × ℚ)))
    (hspec : segmenterSpec (p :: rest) = s :: ss) : ∃ t, s = p :: t := by
  cases rest with
  | nil =>
    simp only [segmenterSpec, List.cons.injEq] at hspec
    exact ⟨[], hspec.1.symm⟩
  | cons q rest2 =>
    by_cases h : 180 < |q.2 - p.2|
    · simp only [segmenterSpec, if_pos h, List.cons.injEq] at hspec
      exact ⟨[], hspec.1.symm⟩
    · cases hsp : segmenterSpec (q :: rest2) with
      | nil => exact absurd hsp (segmenterSpec_ne_nil _ (by simp))
      | cons t ts =>
        simp only [segmenterSpec, if_neg h, hsp, List.cons.injEq] at hspec
        exact ⟨t, hspec.1.symm⟩

lemma segmenterSpec_chain_within : ∀ (pts : List (ℚ × ℚ)), ∀ s ∈ segmenterSpec pts,
    List.Chain' (fun a b : ℚ × ℚ => |b.2 - a.2| ≤ 180) s := by
  intro pts
  induction pts with
  | nil => simp [segmenterSpec]
  | cons p rest ih =>
    intro s hs
    cases rest with
    | nil =>
      simp only [segmenterSpec, List.mem_singleton] at hs
      subst hs
      simp
    | cons q rest2 =>
      by_cases h : 180 < |q.2 - p.2|
      · simp only [segmenterSpec, if_pos h, List.mem_cons] at hs
        rcases hs with rfl | hs
        · simp
        · exact ih s hs
      · cases hsp : segmenterSpec (q :: rest2) with
        | nil => exact absurd hsp (segmenterSpec_ne_nil _ (by simp))
        | cons t ts =>
          simp only [segmenterSpec, if_neg h, hsp, List.mem_cons] at hs
          rcases hs with rfl | hs
          · obtain ⟨t2, rfl⟩ := segmenterSpec_head q rest2 t ts hsp
            have hch := ih (q :: t2) (hsp ▸ List.mem_cons_self _ _)
            exact List.chain'_cons.mpr ⟨not_lt.mp h, hch⟩
          · exact ih s (hsp ▸ List.mem_cons_of_mem _ hs)

lemma segmenterSpec_chain_between : ∀ pts : List (ℚ × ℚ),
    List.Chain' (fun s t => ∀ a ∈ s.getLast?, ∀ b ∈ t.head?, 180 < |b.2 - a.2|)
      (segmenterSpec pts) := by
  intro pts
  induction pts with
  | nil => simp [segmenterSpec]
  | cons p rest ih =>
    cases rest with
    | nil => simp [segmenterSpec]
    | cons q rest2 =>
      by_cases h : 180 < |q.2 - p.2|
      · simp only [segmenterSpec, if_pos h]
        refine List.chain'_cons'.mpr ⟨?_, ih⟩
        intro t ht a ha b hb
        cases hsp : segmenterSpec (q :: rest2) with
        | nil => exact absurd hsp (segmenterSpec_ne_nil _ (by simp))
        | cons s' ss' =>
          rw [hsp] at ht
          simp only [List.head?_cons, Option.mem_some_iff] at ht
          subst ht
          simp only [List.getLast?_singleton, Option.mem_some_iff] at ha
          subst ha
          obtain ⟨t2, rfl⟩ := segmenterSpec_head q rest2 s' ss' hsp
          simp only [List.head?_cons, Option.mem_some_iff] at hb
          subst hb
          exact h
      · cases hsp : segmenterSpec (q :: rest2) with
        | nil => exact absurd hsp (segmenterSpec_ne_nil _ (by simp))
        | cons s' ss' =>
          simp only [segmenterSpec, if_neg h, hsp]
          rw [hsp] at ih
          refine List.chain'_cons'.mpr ⟨?_, (List.chain'_cons'.mp ih).2⟩
          intro t ht a ha b hb
          obtain ⟨t2, rfl⟩ := segmenterSpec_head q rest2 s' ss' hsp
          rw [List.getLast?_cons_cons] at ha
          exact (List.chain'_cons'.mp ih).1 t ht a ha b hb

/-- C6: concatenating the segmenter's output segments in order reproduces
the input point sequence exactly (no point duplicated, dropped or
interpolated); the empty input yields zero segments; and every emitted
segment — including a trailing single-point remainder — is nonempty. -/
theorem c6_segment_concat (pts : List (ℚ × ℚ)) :
    (segmentPoints pts).flatten = pts ∧
    segmentPoints ([] : List (ℚ × ℚ)) = [] ∧
    ∀ s ∈ segmentPoints pts, s ≠ [] := by
  refine ⟨?_, by simp [segmentPoints, segLoop], fun s hs => segLoop_ne_nil pts [] s hs⟩
  simpa using segLoop_flatten pts []

/-- C7: the source segmentation equals the segmentation that cuts exactly
where consecutive longitudes differ by more than 180°; equivalently, within
an output segment no consecutive pair jumps by more than 180 and at every
boundary between consecutive output segments the jump exceeds 180; the
spec's longitude scenario `[170, 175, -179, -170]` yields exactly the two
segments `[170, 175]` and `[-179, -170]`. -/
theorem c7_boundary_iff_crossing (pts : List (ℚ × ℚ)) :
    segmentPoints pts = segmenterSpec pts ∧
    (∀ s ∈ segmentPoints pts, List.Chain' (fun a b : ℚ × ℚ => |b.2 - a.2| ≤ 180) s) ∧
    List.Chain' (fun s t => ∀ a ∈ s.getLast?, ∀ b ∈ t.head?, 180 < |b.2 - a.2|)
      (segmentPoints pts) ∧
    segmentPoints [((0 : ℚ), (170 : ℚ)), (0, 175), (0, -179), (0, -170)] =
      [[(0, 170), (0, 175)], [(0, -179), (0, -170)]] := by
  refine ⟨segmentPoints_eq_spec pts, ?_, ?_, ?_⟩
  · intro s hs
    exact segmenterSpec_chain_within pts s (segmentPoints_eq_spec pts ▸ hs)
  · exact segmentPoints_eq_spec pts ▸ segmenterSpec_chain_between pts
  · norm_num [segmentPoints, segLoop, abs]

/-! Helper lemmas about the full propagation loop and the bulk path. -/

lemma trackLoop_ok {e step : ℚ} (cap : ℤ → Option GeoState) :
    ∀ (fuel : ℕ) (cur : ℚ) (l : List SampleEntry),
      trackLoop cap fuel cur e step = .ok l →
      (∀ entry ∈ l, entry.epoch = ⌊entry.time⌋) ∧
      timeGridFuel fuel cur e step = some (l.map (fun s => s.time)) := by
  intro fuel
  induction fuel with
  | zero =>
    intro cur l h
    by_cases hc : cur ≤ e
    · simp [trackLoop, hc] at h
    · simp only [trackLoop, if_neg hc, LoopRes.ok.injEq] at h
      subst h
      simp [timeGridFuel, hc]
  | succ f ih =>
    intro cur l h
    by_cases hc : cur ≤ e
    · simp only [trackLoop, if_pos hc] at h
      cases hcap : cap ⌊cur⌋ with
      | none =>
        rw [hcap] at h
        exact absurd h (by simp)
      | some st =>
        rw [hcap] at h
        cases hrec : trackLoop cap f (cur + step) e step with
        | diverge =>
          rw [hrec] at h
          exact absurd h (by simp)
        | raise =>
          rw [hrec] at h
          exact absurd h (by simp)
        | ok rest =>
          rw [hrec] at h
          simp only [LoopRes.ok.injEq] at h
          subst h
          obtain ⟨hep, hgrid⟩ := ih (cur + step) rest hrec
          refine ⟨?_, by simp [timeGridFuel, hc, hgrid]⟩
          intro entry hentry
          rcases List.mem_cons.mp hentry with rfl | hmem
          · rfl
          · exact hep entry hmem
    · simp only [trackLoop, if_neg hc, LoopRes.ok.injEq] at h
      subst h
      simp [timeGridFuel, hc]

lemma bulkLoop_length (cap : PropCap) (fuel : ℕ) (start e stepMin : ℚ) :
    ∀ sats : List Satellite,
      (∀ sat ∈ sats, trackLoop (cap sat) fuel start e (60 * stepMin) ≠ .diverge) →
      ∃ rs, bulkLoop cap fuel start e stepMin sats = some rs ∧
        rs.length + failCount cap fuel start e stepMin sats = sats.length := by
  intro sats
  induction sats with
  | nil => exact fun _ => ⟨[], rfl, rfl⟩
  | cons sat rest ih =>
    intro hterm
    obtain ⟨rs, hrs, hlen⟩ := ih (fun s hs => hterm s (List.mem_cons_of_mem _ hs))
    by_cases htle : sat.tleLines.length ≠ 2
    · have hfail : satFails cap fuel start e stepMin sat = true := by
        simp [satFails, htle]
      refine ⟨rs, by simp [bulkLoop, htle, hrs], ?_⟩
      simp only [failCount, List.filter_cons, hfail, if_pos, List.length_cons] at *
      omega
    · cases hloop : trackLoop (cap sat) fuel start e (60 * stepMin) with
      | diverge => exact absurd hloop (hterm sat (List.mem_cons_self _ _))
      | raise =>
        have hfail : satFails cap fuel start e stepMin sat = true := by
          simp [satFails, htle, hloop]
        refine ⟨rs, ?_, ?_⟩
        · simp only [bulkLoop, if_neg htle, hloop]
          exact hrs
        · simp only [failCount, List.filter_cons, hfail, if_pos, List.length_cons] at *
          omega
      | ok l =>
        have hfail : satFails cap fuel start e stepMin sat = false := by
          simp [satFails, htle, hloop]
        refine ⟨⟨sat.id, sat.name, l⟩ :: rs, ?_, ?_⟩
        · simp only [bulkLoop, if_neg htle, hloop, hrs, Option.map_some']
        · simp only [failCount, List.filter_cons, hfail, List.length_cons,
            Bool.false_eq_true, if_false] at *
          omega

/-- C1: in the bulk endpoint a satellite is skipped exactly when its element
text does not split into two lines or its propagation raises; with N ≥ 1
registered satellites of which K fail (and every per-satellite loop
terminating), `noSatellitesPropagated` is returned iff K = N, otherwise the
response retains exactly N − K tracks; the empty registry is reported by the
distinct `noSatellitesAvailable` condition. -/
theorem c1_failure_isolation (cap : PropCap) (fuel : ℕ) (start e stepMin : ℚ)
    (sats : List Satellite) (hne : sats ≠ [])
    (hterm : ∀ sat ∈ sats, trackLoop (cap sat) fuel start e (60 * stepMin) ≠ .diverge) :
    (propagateAll cap fuel start e stepMin sats = .error .noSatellitesPropagated ↔
      failCount cap fuel start e stepMin sats = sats.length) ∧
    (failCount cap fuel start e stepMin sats < sats.length →
      ∃ resp, propagateAll cap fuel start e stepMin sats = .ok resp ∧
        resp.results.length = sats.length - failCount cap fuel start e stepMin sats ∧
        resp.count = sats.length - failCount cap fuel start e stepMin sats) ∧
    propagateAll cap fuel start e stepMin [] = .error .noSatellitesAvailable ∧
    ApiError.noSatellitesAvailable ≠ ApiError.noSatellitesPropagated := by
  obtain ⟨rs, hrs, hlen⟩ := bulkLoop_length cap fuel start e stepMin sats hterm
  have hemp : sats.isEmpty = false := by
    cases sats with
    | nil => exact absurd rfl hne
    | cons a t => rfl
  refine ⟨?_, ?_, by simp [propagateAll], by simp⟩
  · rw [propagateAll]
    simp only [hemp, Bool.false_eq_true, if_false, hrs]
    by_cases hrsnil : rs.isEmpty
    · have hrs0 : rs.length = 0 := by
        rw [List.isEmpty_iff.mp hrsnil]
        rfl
      simp only [hrsnil, if_true]
      constructor
      · intro _
        omega
      · intro _
        trivial
    · have hrs0 : rs.length ≠ 0 := by
        intro hc
        exact hrsnil (by simp [List.isEmpty_iff, List.length_eq_zero.mp hc])
      simp only [hrsnil, Bool.false_eq_true, if_false]
      constructor
      · intro hc
        exact absurd hc (by simp)
      · intro hK
        omega
  · intro hK
    have hrs0 : rs.length ≠ 0 := by omega
    have hrsnil : rs.isEmpty = false := by
      cases rs with
      | nil => exact absurd rfl hrs0
      | cons a t => rfl
    refine ⟨⟨rs.length, buildBulkFig rs, rs⟩, ?_, by simp; omega, by simp; omega⟩
    rw [propagateAll]
    simp only [hemp, Bool.false_eq_true, if_false, hrs, hrsnil]

/-- C1 witness: with two registered satellites of which one has malformed
element text, the bulk endpoint returns one retained track and no failure;
with every propagation raising it returns `noSatellitesPropagated`. -/
theorem c1_witness :
    propagateAll capZero 1 0 0 1 [satOneLine, satTwoLine] ≠
      .error .noSatellitesPropagated ∧
    (∃ resp, propagateAll capZero 1 0 0 1 [satOneLine, satTwoLine] = .ok resp ∧
      resp.results.length = 1) ∧
    propagateAll capNone 1 0 0 1 [satOneLine, satTwoLine] =
      .error .noSatellitesPropagated := by
  have hterm1 : ∀ sat ∈ [satOneLine, satTwoLine],
      trackLoop (capZero sat) 1 0 0 (60 * 1) ≠ .diverge := by
    intro sat _
    have : trackLoop (capZero sat) 1 0 0 (60 * 1) = .ok [⟨0, 0, stZero⟩] := by
      norm_num [trackLoop, capZero]
    rw [this]
    simp
  have hterm2 : ∀ sat ∈ [satOneLine, satTwoLine],
      trackLoop (capNone sat) 1 0 0 (60 * 1) ≠ .diverge := by
    intro sat _
    have : trackLoop (capNone sat) 1 0 0 (60 * 1) = .raise := by
      norm_num [trackLoop, capNone]
    rw [this]
    simp
  have hK1 : failCount capZero 1 0 0 1 [satOneLine, satTwoLine] = 1 := by
    norm_num [failCount, satFails, satOneLine, satTwoLine, trackLoop, capZero,
      List.filter]
  have hK2 : failCount capNone 1 0 0 1 [satOneLine, satTwoLine] = 2 := by
    norm_num [failCount, satFails, satOneLine, satTwoLine, trackLoop, capNone,
      List.filter]
  have h1 := c1_failure_isolation capZero 1 0 0 1 [satOneLine, satTwoLine]
    (by simp) hterm1
  have h2 := c1_failure_isolation capNone 1 0 0 1 [satOneLine, satTwoLine]
    (by simp) hterm2
  refine ⟨?_, ?_, h2.1.mpr (by rw [hK2]; rfl)⟩
  · intro hcontra
    have := h1.1.mp hcontra
    rw [hK1] at this
    simp at this
  · obtain ⟨resp, hresp, hlen, _⟩ := h1.2.1 (by rw [hK1]; norm_num)
    exact ⟨resp, hresp, by rw [hlen, hK1]; rfl⟩

lemma enumFrom_fst_ge {α : Type} : ∀ (l : List α) (n : ℕ) (x : ℕ × α),
    x ∈ enumFrom n l → n ≤ x.1 := by
  intro l
  induction l with
  | nil =>
    intro n x hx
    simp [enumFrom] at hx
  | cons a t ih =>
    intro n x hx
    simp only [enumFrom, List.mem_cons] at hx
    rcases hx with rfl | hx
    · exact le_refl n
    · exact (Nat.le_succ n).trans (ih (n + 1) x hx)

/-- C8 counterexample: on the single-satellite ground-track path the claim
fails at a one-point ground track — the figure contains one segment trace
for the satellite and zero legend-visible traces, not exactly one. -/
theorem c8_counterexample :
    (plotlyMapPlot [0] [0] 2 (some (0, 0))).traces.length = 1 ∧
    (plotlyMapPlot [0] [0] 2 (some (0, 0))).traces.countP
      (fun tr => tr.showlegend) = 0 ∧
    ¬ (plotlyMapPlot [0] [0] 2 (some (0, 0))).traces.countP
      (fun tr => tr.showlegend) = 1 := by
  refine ⟨?_, ?_, ?_⟩ <;>
    norm_num [plotlyMapPlot, segLoop, List.countP, List.countP.go]

/-- C8 as amended: on the multi-satellite path each satellite with a
nonempty point sequence gets exactly one legend-visible trace — its first
segment, carrying the satellite's name — and all its later segment traces
reuse the same colour and name but are legend-hidden; on the
single-satellite ground-track path every trace is legend-hidden, with the
fixed colour `#EDB120` and no name. -/
theorem c8_legend_flags (name color : String) (pts : List (ℚ × ℚ)) (hne : pts ≠ [])
    (latitudes longitudes : List ℚ) (zoom : ℚ) (center : Option (ℚ × ℚ)) :
    (∃ t0 ts, tracesForSat name color pts = t0 :: ts ∧
      t0.showlegend = true ∧ t0.name = some name ∧ t0.color = color ∧
      ∀ tr ∈ ts, tr.showlegend = false ∧ tr.color = color ∧ tr.name = some name) ∧
    ∀ tr ∈ (plotlyMapPlot latitudes longitudes zoom center).traces,
      tr.showlegend = false ∧ tr.color = "#EDB120" ∧ tr.name = none := by
  constructor
  · obtain ⟨s0, ss, hseg⟩ : ∃ s0 ss, segLoop [] pts = s0 :: ss := by
      cases hsl : segLoop [] pts with
      | nil =>
        have hfl := segLoop_flatten pts []
        rw [hsl] at hfl
        simp at hfl
        exact absurd hfl hne
      | cons a b => exact ⟨a, b, rfl⟩
    have heq : tracesForSat name color pts =
        (⟨s0.map Prod.snd, s0.map Prod.fst, color, some name, true⟩ : Trace) ::
          (enumFrom 1 ss).map (fun p =>
            { lon := p.2.map Prod.snd, lat := p.2.map Prod.fst, color := color,
              name := some name, showlegend := p.1 == 0 }) := by
      rw [tracesForSat, hseg]
      simp [enumFrom]
    refine ⟨_, _, heq, rfl, rfl, rfl, ?_⟩
    intro tr htr
    simp only [List.mem_map] at htr
    obtain ⟨p, hp, rfl⟩ := htr
    have h1 : 1 ≤ p.1 := enumFrom_fst_ge ss 1 p hp
    refine ⟨?_, rfl, rfl⟩
    simp only [beq_eq_false_iff_ne, ne_eq]
    omega
  · intro tr htr
    simp only [plotlyMapPlot, List.mem_map] at htr
    obtain ⟨s, _, rfl⟩ := htr
    exact ⟨rfl, rfl, rfl⟩

/-- C8 witness: one satellite with a one-point ground track on the
multi-satellite path, and a concrete single-satellite figure. -/
theorem c8_witness :
    (∃ t0 ts, tracesForSat "A" "#1f77b4" [((0 : ℚ), (0 : ℚ))] = t0 :: ts ∧
      t0.showlegend = true ∧ t0.name = some "A" ∧ t0.color = "#1f77b4" ∧
      ∀ tr ∈ ts, tr.showlegend = false ∧ tr.color = "#1f77b4" ∧
        tr.name = some "A") ∧
    ∀ tr ∈ (plotlyMapPlot [0] [0] 2 none).traces,
      tr.showlegend = false ∧ tr.color = "#EDB120" ∧ tr.name = none :=
  c8_legend_flags "A" "#1f77b4" [(0, 0)] (by simp) [0] [0] 2 none

/-- C9: the combined view center is the arithmetic mean of the pooled
latitudes and longitudes across every retained track (pooled, not
per-satellite means averaged); the traces of the satellite at output index
`idx` are built with `palette[idx % palette.length]` from the fixed
ten-colour palette, which cycles so that indices past the palette reuse
colours rather than failing. -/
theorem c9_center_and_colors (results : List SatResult)
    (hlat : allLats results ≠ []) (hlon : allLons results ≠ []) :
    (buildBulkFig results).centerLat =
      (allLats results).sum / ((allLats results).length : ℚ) ∧
    (buildBulkFig results).centerLon =
      (allLons results).sum / ((allLons results).length : ℚ) ∧
    (buildBulkFig results).traces =
      ((enumFrom 0 results).map (fun p =>
        tracesForSat p.2.name (colorFor p.1) (satPoints p.2))).flatten ∧
    colorFor = (fun idx => palette.getD (idx % palette.length) "#000000") ∧
    palette.length = 10 ∧
    ∀ idx : ℕ, colorFor (idx + palette.length) = colorFor idx := by
  refine ⟨?_, ?_, rfl, rfl, rfl, ?_⟩
  · simp [buildBulkFig, List.isEmpty_iff, hlat]
  · simp [buildBulkFig, List.isEmpty_iff, hlon]
  · intro idx
    simp [colorFor, Nat.add_mod_right]

/-- C9 witness: two satellites with tracks of different lengths (latitudes
`[0, 10]` and `[14]`): the pooled mean is `(0 + 10 + 14) / 3 = 8`, which is
not the `9.5` that averaging the per-satellite means would give; and colour
index `palette.length` reuses colour `0`. -/
theorem c9_witness :
    (buildBulkFig [resA, resB]).centerLat = 8 ∧
    ((8 : ℚ) ≠ ((0 + 10) / 2 + 14) / 2) ∧
    colorFor (0 + palette.length) = colorFor 0 := by
  have h := c9_center_and_colors [resA, resB]
    (by simp [allLats, resA, resB, stLat])
    (by simp [allLons, resA, resB, stLat])
  refine ⟨?_, by norm_num, h.2.2.2.2.2 0⟩
  rw [h.1]
  norm_num [allLats, resA, resB, stLat]

/-- C10: whenever the propagation loop completes, every collected sample's
propagation epoch is the floor to whole seconds of its recorded instant,
while the recorded `times` sequence is exactly the loop's full-precision
instants (the sample grid itself). -/
theorem c10_epoch_truncation (cap : ℤ → Option GeoState) (fuel : ℕ)
    (start e step : ℚ) (l : List SampleEntry)
    (h : trackLoop cap fuel start e step = .ok l) :
    (∀ entry ∈ l, entry.epoch = ⌊entry.time⌋) ∧
    timeGridFuel fuel start e step = some (l.map (fun s => s.time)) :=
  trackLoop_ok cap fuel start l h

/-- C10 witness: a half-second step produces the sample instants
`0, 1/2, 1`; the middle sample records the fractional instant `1/2` but is
propagated at epoch `0 = floor(1/2)`, a genuinely different time. -/
theorem c10_witness :
    trackLoop (capZero satTwoLine) 3 0 1 (1 / 2) =
      .ok [⟨0, 0, stZero⟩, ⟨1 / 2, 0, stZero⟩, ⟨1, 1, stZero⟩] ∧
    (∀ entry ∈ [(⟨0, 0, stZero⟩ : SampleEntry), ⟨1 / 2, 0, stZero⟩,
        ⟨1, 1, stZero⟩], entry.epoch = ⌊entry.time⌋) ∧
    ((1 : ℚ) / 2 ≠ ((0 : ℤ) : ℚ)) := by
  have h : trackLoop (capZero satTwoLine) 3 0 1 (1 / 2) =
      .ok [⟨0, 0, stZero⟩, ⟨1 / 2, 0, stZero⟩, ⟨1, 1, stZero⟩] := by
    norm_num [trackLoop, capZero]
  exact ⟨h, (c10_epoch_truncation _ 3 0 1 (1 / 2) _ h).1, by norm_num⟩

end OrbitalProp
